import Mathlib

/-!
Shallow embedding of the maker/checker decision engine of the
`llm-squared-framework` repository: data model (`scripts/types.ts`),
`QualityAnalyzer` (`scripts/orchestrator/quality-analyzer.ts`),
`MergeDecider` (`scripts/orchestrator/merge-decider.ts`),
`ConvergenceDetector` and `IterationLimiter`
(`scripts/safety/convergence-detector.ts`), `StateManager` and the
orchestrator iteration loop (`scripts/orchestrator/index.ts`).

JS `number` values are modelled as `ℚ`; JS string formatting of numbers
(`toFixed`) is abstracted as an explicit rendering function argument
`fmt : ℚ → String` wherever a produced string interpolates a number.
Persistence timestamps (`createdAt` / `updatedAt`, ISO strings set by
`saveState`) are not modelled; record timestamps are modelled as `Nat`
milliseconds supplied by the caller.
-/

namespace LLM2

/-- `Issue.type` from `scripts/types.ts`. -/
inductive IssueType
  | security | performance | type_safety | code_quality | best_practice
deriving DecidableEq, Repr

/-- `Issue.severity` from `scripts/types.ts`. -/
inductive Severity
  | error | warning | info
deriving DecidableEq, Repr

/-- `SecurityIssue.severity` from `scripts/types.ts`. -/
inductive SecSeverity
  | critical | high | medium | low
deriving DecidableEq, Repr

/-- `PerformanceIssue.impact` from `scripts/types.ts`. -/
inductive Impact
  | high | medium | low
deriving DecidableEq, Repr

/-- Result status of a collaborator call (`'success' | 'error'`). -/
inductive CallStatus
  | success | error
deriving DecidableEq, Repr

/-- CI status (`'success' | 'pending' | 'failure' | 'error'`). -/
inductive CIStatus
  | success | pending | failure | error
deriving DecidableEq, Repr

/-- `IterationState.currentPhase` from `scripts/types.ts`. -/
inductive Phase
  | waiting | codex_review | claude_response | re_review | complete | failed
deriving DecidableEq, Repr

/-- `IterationState.convergenceStatus` from `scripts/types.ts`. -/
inductive ConvStatus
  | improving | stagnant | complete
deriving DecidableEq, Repr

/-- `Issue` from `scripts/types.ts` (optional `suggestion`/`code` omitted). -/
structure Issue where
  type : IssueType
  severity : Severity
  file : String
  line : Nat
  message : String
deriving DecidableEq, Repr

/-- `SecurityIssue` from `scripts/types.ts`. -/
structure SecurityIssue where
  type : String
  severity : SecSeverity
  description : String
  file : String
  line : Nat
  recommendation : String
deriving DecidableEq, Repr

/-- `PerformanceIssue` from `scripts/types.ts`. -/
structure PerformanceIssue where
  type : String
  impact : Impact
  description : String
  file : String
  line : Nat
  suggestion : String
deriving DecidableEq, Repr

/-- `CodexReviewResult` from `scripts/types.ts`
(`rawResponse`/`recommendations`/`timestamp` omitted: never read by the core). -/
structure CodexReviewResult where
  status : CallStatus
  issuesFound : List Issue
  overallQuality : ℚ
  securityIssues : List SecurityIssue
  performanceIssues : List PerformanceIssue
  cost : ℚ
deriving DecidableEq, Repr

/-- `ClaudeResponseResult` from `scripts/types.ts` (fields read by the core). -/
structure ClaudeResponseResult where
  status : CallStatus
  filesModified : List String
  issuesAddressed : Nat
  cost : ℚ
deriving DecidableEq, Repr

/-- `IterationRecord` from `scripts/types.ts`; `timestamp` is milliseconds. -/
structure IterationRecord where
  iteration : Nat
  codexReview : Option CodexReviewResult
  claudeResponse : Option ClaudeResponseResult
  issuesFound : Nat
  issuesFixed : Nat
  qualityDelta : ℚ
  cost : ℚ
  timestamp : Nat
  durationSeconds : ℚ
deriving DecidableEq, Repr

/-- `MakerCheckerConfig.requireHumanApprovalIf` from `scripts/types.ts`.
`tests_failing` is read by `MergeDecider.requiresHumanApproval` and set by the
default config even though the declared TS interface omits it; an absent field
is modelled as `false` (JS `undefined` is falsy). -/
structure HumanApprovalRules where
  qualityScoreBelow : ℚ
  securityIssuesFound : Bool
  iterationsExceeded : Bool
  costExceeded : Bool
  tests_failing : Bool
deriving DecidableEq, Repr

/-- `MakerCheckerConfig` from `scripts/types.ts` (notification / label fields
omitted: never read by the decision logic modelled here). -/
structure MakerCheckerConfig where
  maxIterations : Nat
  qualityThreshold : ℚ
  autoMergeThreshold : ℚ
  autoMergeEnabled : Bool
  maxCostPerPR : ℚ
  monthlyCostCap : ℚ
  requireHumanApprovalIf : HumanApprovalRules
deriving DecidableEq, Repr

/-- `IterationState` from `scripts/types.ts`
(`createdAt`/`updatedAt` ISO timestamps not modelled). -/
structure IterationState where
  prNumber : Nat
  repository : String
  currentIteration : Nat
  maxIterations : Nat
  history : List IterationRecord
  currentPhase : Phase
  qualityScore : ℚ
  convergenceStatus : ConvStatus
  totalCost : ℚ
deriving DecidableEq, Repr

/-- `QualityMetrics` from `scripts/types.ts` (optional fields omitted). -/
structure QualityMetrics where
  overallScore : ℚ
  codeQuality : ℚ
  security : ℚ
  performance : ℚ
  typeSafety : ℚ
  bestPractices : ℚ
deriving DecidableEq, Repr

/-- `MergeDecision` from `scripts/types.ts`. -/
structure MergeDecision where
  shouldMerge : Bool
  reason : String
  requiresHumanApproval : Bool
  blockingIssues : List Issue
  qualityScore : ℚ
  iterationsUsed : Nat
  totalCost : ℚ
deriving DecidableEq, Repr

/-! ## QualityAnalyzer (`scripts/orchestrator/quality-analyzer.ts`) -/

/-- Penalty contribution of one `issuesFound` entry inside
`QualityAnalyzer.calculatePenalties`. -/
def issuePenalty (issue : Issue) : ℚ :=
  match issue.severity with
  | .error => 1/10
  | .warning => 1/20
  | .info => 1/50

/-- Penalty contribution of one `securityIssues` entry inside
`QualityAnalyzer.calculatePenalties`. -/
def securityPenalty (issue : SecurityIssue) : ℚ :=
  match issue.severity with
  | .critical => 1/5
  | .high => 3/20
  | _ => 0

/-- Penalty contribution of one `performanceIssues` entry inside
`QualityAnalyzer.calculatePenalties`. -/
def performancePenalty (issue : PerformanceIssue) : ℚ :=
  match issue.impact with
  | .high => 1/10
  | _ => 0

/-- `QualityAnalyzer.calculatePenalties`: three `forEach` accumulations, i.e.
the sum of the per-item penalties over the three issue lists. -/
def calculatePenalties (review : CodexReviewResult) : ℚ :=
  (review.issuesFound.map issuePenalty).sum
    + (review.securityIssues.map securityPenalty).sum
    + (review.performanceIssues.map performancePenalty).sum

/-- `QualityAnalyzer.calculateQualityScore`. -/
def calculateQualityScore (review : CodexReviewResult) : ℚ :=
  if review.status = .error then 0
  else
    let score := review.overallQuality
    let score := max 0 (score - calculatePenalties review)
    min 1 (max 0 score)

/-- Penalty contribution of one issue inside
`QualityAnalyzer.calculateCategoryScore`. -/
def categoryPenalty (issue : Issue) : ℚ :=
  match issue.severity with
  | .error => 3/20
  | .warning => 2/25
  | .info => 3/100

/-- `QualityAnalyzer.calculateCategoryScore`. -/
def calculateCategoryScore (issues : List Issue) : ℚ :=
  if issues = [] then 1
  else max 0 (1 - (issues.map categoryPenalty).sum)

/-- `QualityAnalyzer.calculateMetrics`. -/
def calculateMetrics (review : CodexReviewResult) : QualityMetrics :=
  let issues := review.issuesFound
  let security := calculateCategoryScore (issues.filter (·.type = .security))
  let performance := calculateCategoryScore (issues.filter (·.type = .performance))
  let typeSafety := calculateCategoryScore (issues.filter (·.type = .type_safety))
  let codeQuality := calculateCategoryScore (issues.filter (·.type = .code_quality))
  let bestPractices := calculateCategoryScore (issues.filter (·.type = .best_practice))
  let overallScore :=
    security * (1/4) + performance * (1/5) + typeSafety * (1/5)
      + codeQuality * (1/5) + bestPractices * (3/20)
  { overallScore, codeQuality, security, performance, typeSafety, bestPractices }

/-- `QualityAnalyzer.meetsThreshold`. -/
def meetsThreshold (score threshold : ℚ) : Bool :=
  score ≥ threshold

/-- `QualityAnalyzer.isImproving`, as called by the orchestrator on
`state.history`. The TS source reads `recentHistory[i].qualityScore`, but
`IterationRecord` has no `qualityScore` field, so each JS comparison is
`undefined > undefined`, which is `false`; we embed that constant comparison
result, so `improvementCount` stays `0`. -/
def isImproving (history : List IterationRecord) : Bool :=
  if history.length < 2 then true
  else
    let recentHistory := history.drop (history.length - 3)
    let improvementCount : Nat := 0
    improvementCount ≥ (recentHistory.length + 1) / 2

/-! ## MergeDecider (`scripts/orchestrator/merge-decider.ts`) -/

/-- Rendering of a `CIStatus` value inside an interpolated string. -/
def ciStatusStr : CIStatus → String
  | .success => "success"
  | .pending => "pending"
  | .failure => "failure"
  | .error => "error"

/-- Rendering of a `Phase` value inside an interpolated string. -/
def phaseStr : Phase → String
  | .waiting => "waiting"
  | .codex_review => "codex_review"
  | .claude_response => "claude_response"
  | .re_review => "re_review"
  | .complete => "complete"
  | .failed => "failed"

/-- `MergeDecider.requiresHumanApproval`. The `qualityMet` parameter is passed
by the source but never read in the body. JS truthiness of the numeric rule
`rules.qualityScoreBelow` is modelled as `≠ 0`. -/
def requiresHumanApprovalCheck (config : MakerCheckerConfig)
    (state : IterationState) (review : CodexReviewResult)
    (_qualityMet : Bool) (ciStatus : CIStatus) : Bool :=
  let rules := config.requireHumanApprovalIf
  (decide (rules.qualityScoreBelow ≠ 0) &&
      decide (state.qualityScore < rules.qualityScoreBelow))
    || (rules.securityIssuesFound && decide (review.securityIssues.length > 0))
    || (rules.iterationsExceeded &&
        decide (state.currentIteration ≥ state.maxIterations))
    || (rules.costExceeded && decide (state.totalCost ≥ config.maxCostPerPR))
    || (rules.tests_failing && decide (ciStatus ≠ .success))

/-- `MergeDecider.generateApprovalMessage`. -/
def generateApprovalMessage (fmt : ℚ → String) (state : IterationState)
    (autoMerge : Bool) : String :=
  let parts : List String :=
    ["Quality threshold met: " ++ fmt (state.qualityScore * 100) ++ "%",
     "Iterations used: " ++ toString state.currentIteration ++ "/"
       ++ toString state.maxIterations,
     "Total cost: $" ++ fmt state.totalCost,
     "All checks passed ✅",
     if autoMerge then "**Auto-merge enabled** - PR will be merged automatically"
     else "**Ready for your review** - Manual merge approval required"]
  String.intercalate " | " parts

/-- `MergeDecider.generateBlockingMessage`. -/
def generateBlockingMessage (reasons : List String) : String :=
  "**Cannot merge yet**:\n\n"
    ++ String.intercalate "\n" (reasons.map (fun r => "- " ++ r))

/-- `MergeDecider.shouldMerge`. `fmt` abstracts JS `toFixed` number rendering
inside the produced reason strings. -/
def shouldMergeDecision (fmt : ℚ → String) (config : MakerCheckerConfig)
    (state : IterationState) (latestReview : CodexReviewResult)
    (ciStatus : CIStatus) : MergeDecision :=
  let qualityMet : Bool := decide (state.qualityScore ≥ config.qualityThreshold)
  let reasons : List String :=
    if !qualityMet then
      ["Quality score " ++ fmt (state.qualityScore * 100)
        ++ "% below threshold " ++ fmt (config.qualityThreshold * 100) ++ "%"]
    else []
  let securityIssues := latestReview.issuesFound.filter
    (fun i => decide (i.type = .security) && decide (i.severity = .error))
  let blockingIssues : List Issue :=
    if securityIssues.length > 0 then securityIssues else []
  let reasons := reasons ++
    (if securityIssues.length > 0 then
      [toString securityIssues.length ++ " critical security issue(s) found"]
    else [])
  let reasons := reasons ++
    (if ciStatus ≠ .success then
      ["CI status: " ++ ciStatusStr ciStatus ++ " (must be success)"]
    else [])
  let iterationsExceeded : Bool :=
    decide (state.currentIteration ≥ state.maxIterations)
  let reasons := reasons ++
    (if iterationsExceeded && !qualityMet then
      ["Reached max iterations (" ++ toString state.maxIterations
        ++ ") without meeting quality threshold"]
    else [])
  let costExceeded : Bool := decide (state.totalCost ≥ config.maxCostPerPR)
  let reasons := reasons ++
    (if costExceeded then
      ["Cost exceeded limit: $" ++ fmt state.totalCost ++ " / $"
        ++ fmt config.maxCostPerPR]
    else [])
  let isStagnant : Bool := decide (state.convergenceStatus = .stagnant)
  let reasons := reasons ++
    (if isStagnant && !qualityMet then
      ["No improvement detected in recent iterations"]
    else [])
  let canAutoMerge : Bool :=
    config.autoMergeEnabled && qualityMet
      && decide (state.qualityScore ≥ config.autoMergeThreshold)
      && decide (blockingIssues.length = 0)
      && decide (ciStatus = .success)
      && !costExceeded
  let reqHuman : Bool :=
    requiresHumanApprovalCheck config state latestReview qualityMet ciStatus
  let shouldMerge : Bool :=
    canAutoMerge
      || (qualityMet && decide (blockingIssues.length = 0)
          && decide (ciStatus = .success) && !reqHuman)
  { shouldMerge
    reason :=
      if shouldMerge then generateApprovalMessage fmt state canAutoMerge
      else generateBlockingMessage reasons
    requiresHumanApproval := reqHuman || !canAutoMerge
    blockingIssues
    qualityScore := state.qualityScore
    iterationsUsed := state.currentIteration
    totalCost := state.totalCost }

/-! ## IterationLimiter (`scripts/safety/convergence-detector.ts`) -/

/-- The reason string of `canStartIteration`'s max-iterations branch. -/
def maxIterationsReason (maxIterations : Nat) : String :=
  "Maximum iterations reached (" ++ toString maxIterations ++ ")"

/-- The reason string of `canStartIteration`'s terminal-state branch. -/
def terminalStateReason (phase : Phase) : String :=
  "PR already in terminal state: " ++ phaseStr phase

/-- The reason string of `canStartIteration`'s cost-limit branch. -/
def costLimitReason (fmt : ℚ → String) (totalCost maxCost : ℚ) : String :=
  "Cost limit exceeded: $" ++ fmt totalCost ++ " / $" ++ fmt maxCost

/-- Return type of `IterationLimiter.canStartIteration`. -/
structure CanStart where
  allowed : Bool
  reason : Option String
deriving DecidableEq, Repr

/-- `IterationLimiter.canStartIteration`. -/
def canStartIteration (fmt : ℚ → String) (config : MakerCheckerConfig)
    (state : IterationState) : CanStart :=
  if state.currentIteration ≥ state.maxIterations then
    ⟨false, some (maxIterationsReason state.maxIterations)⟩
  else if state.currentPhase = .complete ∨ state.currentPhase = .failed then
    ⟨false, some (terminalStateReason state.currentPhase)⟩
  else if state.totalCost ≥ config.maxCostPerPR then
    ⟨false, some (costLimitReason fmt state.totalCost config.maxCostPerPR)⟩
  else ⟨true, none⟩

/-! ## ConvergenceDetector (`scripts/safety/convergence-detector.ts`) -/

/-- The quality value read from a history record:
`h.codexReview?.overallQuality || 0` (absent review, and a reported `0`,
both give `0`). -/
def recordQuality (r : IterationRecord) : ℚ :=
  match r.codexReview with
  | some c => c.overallQuality
  | none => 0

/-- The list of adjacent deltas `l[i] - l[i-1]` of a list, in order. -/
def adjacentDeltas : List ℚ → List ℚ
  | a :: b :: rest => (b - a) :: adjacentDeltas (b :: rest)
  | _ => []

/-- The list of adjacent pairs `(l[i-1], l[i])` of a list, in order. -/
def adjacentPairs {α : Type} : List α → List (α × α)
  | a :: b :: rest => (a, b) :: adjacentPairs (b :: rest)
  | _ => []

/-- JS `Array.prototype.slice(-n)`: the last `n` elements (`slice(-0)` is the
whole array). -/
def sliceLast {α : Type} (n : Nat) (l : List α) : List α :=
  if n = 0 then l else l.drop (l.length - n)

/-- Result of `ConvergenceDetector.analyzeQualityTrend`. -/
structure QualityTrend where
  improving : Bool
  stagnant : Bool
  regressing : Bool
deriving DecidableEq, Repr

/-- `ConvergenceDetector.analyzeQualityTrend`. -/
def analyzeQualityTrend (history : List IterationRecord) : QualityTrend :=
  let qualities := history.map recordQuality
  let ds := adjacentDeltas qualities
  let improvingCount := ds.countP (fun d => decide (d > 1/50))
  let regressingCount := ds.countP (fun d => decide (d < -(1/50)))
  let sameCount := ds.countP (fun d => decide (¬d > 1/50 ∧ ¬d < -(1/50)))
  { improving := decide (improvingCount > regressingCount)
      && decide (improvingCount > 0)
    stagnant := decide (sameCount ≥ qualities.length - 1)
    regressing := decide (regressingCount > improvingCount) }

/-- Result of `ConvergenceDetector.analyzeIssueTrend`. -/
structure IssueTrend where
  decreasing : Bool
  stagnant : Bool
  increasing : Bool
deriving DecidableEq, Repr

/-- `ConvergenceDetector.analyzeIssueTrend`. -/
def analyzeIssueTrend (history : List IterationRecord) : IssueTrend :=
  let issueCounts := history.map (·.issuesFound)
  let pairs := adjacentPairs issueCounts
  let decreasingCount := pairs.countP (fun p => decide (p.2 < p.1))
  let increasingCount := pairs.countP (fun p => decide (p.2 > p.1))
  let sameCount := pairs.countP (fun p => decide (¬p.2 < p.1 ∧ ¬p.2 > p.1))
  { decreasing := decide (decreasingCount > increasingCount)
    stagnant := decide (sameCount ≥ issueCounts.length - 1)
    increasing := decide (increasingCount > decreasingCount) }

/-- `ConvergenceDetector.calculateOverallTrend`. -/
def calculateOverallTrend (history : List IterationRecord) : ℚ :=
  if history.length < 2 then 0
  else
    let qs := history.map recordQuality
    (qs.getLastD 0 - qs.headD 0) / history.length

/-- Status returned by `ConvergenceDetector.detectConvergence`. -/
inductive DetectStatus
  | improving | stagnant | regressing
deriving DecidableEq, Repr

/-- Result of `ConvergenceDetector.detectConvergence`. -/
structure DetectResult where
  status : DetectStatus
  confidence : ℚ
  reason : String
deriving DecidableEq, Repr

/-- `ConvergenceDetector.detectConvergence`; `stagnationThreshold` is the
constructor parameter (default `3`). -/
def detectConvergence (stagnationThreshold : Nat) (state : IterationState) :
    DetectResult :=
  if state.history.length < 2 then
    ⟨.improving, 1/2, "Not enough iterations to determine trend"⟩
  else
    let recentHistory := sliceLast stagnationThreshold state.history
    let qualityTrend := analyzeQualityTrend recentHistory
    let issueTrend := analyzeIssueTrend recentHistory
    if qualityTrend.improving && issueTrend.decreasing then
      ⟨.improving, 9/10, "Quality increasing and issues decreasing"⟩
    else if qualityTrend.stagnant && issueTrend.stagnant then
      ⟨.stagnant, 17/20,
        "No improvement in quality or issue count for multiple iterations"⟩
    else if qualityTrend.regressing || issueTrend.increasing then
      ⟨.regressing, 4/5, "Quality decreasing or new issues being introduced"⟩
    else
      let overallTrend := calculateOverallTrend recentHistory
      if overallTrend > 1/20 then
        ⟨.improving, 3/5, "Slow but steady improvement"⟩
      else if |overallTrend| ≤ 1/20 then
        ⟨.stagnant, 7/10, "Minimal change in recent iterations"⟩
      else ⟨.regressing, 7/10, "Overall negative trend"⟩

/-- The mean of a list of rationals (callers guard against the empty list). -/
def listMean (l : List ℚ) : ℚ := l.sum / l.length

/-- `ConvergenceDetector.calculateVariance`. -/
def calculateVariance (values : List ℚ) : ℚ :=
  if values = [] then 0
  else
    let mean := listMean values
    let squaredDiffs := values.map (fun v => (v - mean) ^ 2)
    squaredDiffs.sum / values.length

/-- Result of `ConvergenceDetector.predictConvergence`. -/
structure Prediction where
  willReach : Bool
  estimatedIterations : ℤ
  confidence : ℚ
deriving DecidableEq, Repr

/-- `ConvergenceDetector.predictConvergence`; `Math.ceil` is `Int.ceil`. -/
def predictConvergence (state : IterationState) (targetQuality : ℚ) :
    Prediction :=
  if state.qualityScore ≥ targetQuality then ⟨true, 0, 1⟩
  else if state.history.length < 2 then
    ⟨true, (state.maxIterations : ℤ) - state.currentIteration, 3/10⟩
  else
    let improvements := adjacentDeltas (state.history.map recordQuality)
    let avgImprovement := listMean improvements
    if avgImprovement ≤ 0 then ⟨false, -1, 9/10⟩
    else
      let neededImprovement := targetQuality - state.qualityScore
      let estimatedIterations := ⌈neededImprovement / avgImprovement⌉
      let iterationsRemaining :=
        (state.maxIterations : ℤ) - state.currentIteration
      let willReach := decide (estimatedIterations ≤ iterationsRemaining)
      let confidence := max (2/5) (1 - calculateVariance improvements)
      ⟨willReach, estimatedIterations, confidence⟩

/-! ## StateManager (state-manager.ts) -/

/-- `StateManager.initializeState` (persistence side effect omitted). -/
def initializeState (prNumber : Nat) (repository : String)
    (config : MakerCheckerConfig) : IterationState :=
  { prNumber
    repository
    currentIteration := 0
    maxIterations := config.maxIterations
    history := []
    currentPhase := .waiting
    qualityScore := 0
    convergenceStatus := .improving
    totalCost := 0 }

/-- `StateManager.startIteration`. -/
def startIteration (state : IterationState) : IterationState :=
  { state with
      currentIteration := state.currentIteration + 1
      currentPhase := .codex_review }

/-- The argument of `StateManager.recordIteration`:
`Omit<IterationRecord, 'timestamp' | 'durationSeconds'>`. -/
structure RecordInput where
  iteration : Nat
  codexReview : Option CodexReviewResult
  claudeResponse : Option ClaudeResponseResult
  issuesFound : Nat
  issuesFixed : Nat
  qualityDelta : ℚ
  cost : ℚ
deriving DecidableEq, Repr

/-- `StateManager.recordIteration`; `now` models `Date.now()`. The update
`state.qualityScore = record.codexReview?.overallQuality || state.qualityScore`
keeps the previous score when the review is absent or its reported
`overallQuality` is `0` (JS falsy). -/
def recordIteration (state : IterationState) (record : RecordInput)
    (now : Nat) : IterationState :=
  let fullRecord : IterationRecord :=
    { iteration := record.iteration
      codexReview := record.codexReview
      claudeResponse := record.claudeResponse
      issuesFound := record.issuesFound
      issuesFixed := record.issuesFixed
      qualityDelta := record.qualityDelta
      cost := record.cost
      timestamp := now
      durationSeconds := 0 }
  { state with
      history := state.history ++ [fullRecord]
      totalCost := state.totalCost + record.cost
      qualityScore :=
        match record.codexReview with
        | some c =>
          if c.overallQuality = 0 then state.qualityScore else c.overallQuality
        | none => state.qualityScore }

/-- `StateManager.updatePhase`. -/
def updatePhase (state : IterationState) (phase : Phase) : IterationState :=
  { state with currentPhase := phase }

/-- `StateManager.updateConvergence`. -/
def updateConvergence (state : IterationState) (status : ConvStatus) :
    IterationState :=
  { state with convergenceStatus := status }

/-- `StateManager.complete`. -/
def completeState (state : IterationState) (success : Bool) : IterationState :=
  { state with currentPhase := if success then .complete else .failed }

/-- The iteration states reachable through the `StateManager` operations. -/
inductive Reachable : IterationState → Prop where
  | init (prNumber : Nat) (repository : String) (config : MakerCheckerConfig) :
      Reachable (initializeState prNumber repository config)
  | start {s : IterationState} : Reachable s → Reachable (startIteration s)
  | record {s : IterationState} (r : RecordInput) (now : Nat) :
      Reachable s → Reachable (recordIteration s r now)
  | phase {s : IterationState} (p : Phase) :
      Reachable s → Reachable (updatePhase s p)
  | conv {s : IterationState} (c : ConvStatus) :
      Reachable s → Reachable (updateConvergence s c)
  | done {s : IterationState} (b : Bool) :
      Reachable s → Reachable (completeState s b)

/-! ## Orchestrator loop (`scripts/orchestrator/index.ts`, `runIterations`) -/

/-- The collaborator responses consumed by one pass of the `runIterations`
`while` body: the Codex review, the CI status fetched when the threshold is
met, the Claude response, and the wall clock at recording time. -/
structure IterInput where
  codexReview : CodexReviewResult
  ciStatus : CIStatus
  claudeResponse : ClaudeResponseResult
  now : Nat
deriving DecidableEq, Repr

/-- Result of one pass of the `runIterations` loop body: the mutated state,
whether the body hit a `break`, and whether the Claude (Maker) client was
invoked during the pass. -/
structure StepResult where
  state : IterationState
  stop : Bool
  claudeInvoked : Bool
deriving DecidableEq, Repr

/-- One pass of the body of `MakerCheckerOrchestrator.runIterations`
(comment/label side effects and the posted merge decision omitted; they do
not mutate the iteration state). -/
def runIterationBody (config : MakerCheckerConfig) (state : IterationState)
    (input : IterInput) : StepResult :=
  let state := startIteration state
  if input.codexReview.status = .error then
    ⟨{ state with currentPhase := .failed }, true, false⟩
  else
    let qualityScore := calculateQualityScore input.codexReview
    let state := { state with qualityScore := qualityScore }
    if meetsThreshold qualityScore config.qualityThreshold then
      let state := recordIteration state
        { iteration := state.currentIteration
          codexReview := some input.codexReview
          claudeResponse := none
          issuesFound := input.codexReview.issuesFound.length
          issuesFixed := 0
          qualityDelta := 0
          cost := input.codexReview.cost } input.now
      ⟨completeState state true, true, false⟩
    else if input.codexReview.issuesFound.length = 0 then
      ⟨completeState state true, true, false⟩
    else
      let state := updatePhase state .claude_response
      if input.claudeResponse.status = .error then
        ⟨{ state with currentPhase := .failed }, true, true⟩
      else
        let state := recordIteration state
          { iteration := state.currentIteration
            codexReview := some input.codexReview
            claudeResponse := some input.claudeResponse
            issuesFound := input.codexReview.issuesFound.length
            issuesFixed := input.claudeResponse.issuesAddressed
            qualityDelta := 0
            cost := input.codexReview.cost + input.claudeResponse.cost }
          input.now
        let improving := isImproving state.history
        let state :=
          updateConvergence state (if improving then .improving else .stagnant)
        if !improving && decide (state.currentIteration ≥ 3) then
          ⟨state, true, true⟩
        else if state.totalCost ≥ config.maxCostPerPR then ⟨state, true, true⟩
        else ⟨state, false, true⟩

/-- The `runIterations` `while` loop, driven by the list of collaborator
responses; returns the final state and, per executed iteration, the iteration
number and whether Claude (the Maker) was invoked in it. -/
def runIterations (config : MakerCheckerConfig) (state : IterationState) :
    List IterInput → IterationState × List (Nat × Bool)
  | [] => (state, [])
  | input :: rest =>
    if state.currentIteration < state.maxIterations then
      let result := runIterationBody config state input
      let entry := (result.state.currentIteration, result.claudeInvoked)
      if result.stop then (result.state, [entry])
      else
        let tail := runIterations config result.state rest
        (tail.1, entry :: tail.2)
    else (state, [])

/-! ## Concrete example inputs used by witnesses and counterexamples -/

/-- A trivial rendering function standing in for `toFixed`. -/
def fmtEmpty : ℚ → String := fun _ => ""

/-- A non-security issue of severity `error`. -/
def issueCx : Issue :=
  { type := .type_safety, severity := .error, file := "src/a.ts", line := 10,
    message := "unsafe cast" }

/-- A security-type issue of severity `error`. -/
def issueSec : Issue :=
  { type := .security, severity := .error, file := "src/db.ts", line := 4,
    message := "raw query" }

/-- A security issue of severity `critical`. -/
def secCx : SecurityIssue :=
  { type := "sql-injection", severity := .critical,
    description := "raw query", file := "src/db.ts", line := 3,
    recommendation := "parameterize" }

/-- A successful review carrying one non-security `error` issue and one
`critical` security issue. -/
def rvCx : CodexReviewResult :=
  { status := .success, issuesFound := [issueCx], overallQuality := 19/20,
    securityIssues := [secCx], performanceIssues := [], cost := 0 }

/-- A successful review whose only issue is a security-type `error` issue. -/
def rvSec : CodexReviewResult :=
  { status := .success, issuesFound := [issueSec], overallQuality := 19/20,
    securityIssues := [], performanceIssues := [], cost := 0 }

/-- A clean successful review (no issues at all). -/
def rvClean : CodexReviewResult :=
  { status := .success, issuesFound := [], overallQuality := 9/10,
    securityIssues := [], performanceIssues := [], cost := 0 }

/-- An error-status review. -/
def rvErr : CodexReviewResult :=
  { status := .error, issuesFound := [], overallQuality := 0,
    securityIssues := [], performanceIssues := [], cost := 1/10 }

/-- A configuration with auto-merge enabled and every human-approval rule on. -/
def cfgCx : MakerCheckerConfig :=
  { maxIterations := 5, qualityThreshold := 4/5, autoMergeThreshold := 9/10,
    autoMergeEnabled := true, maxCostPerPR := 5, monthlyCostCap := 100,
    requireHumanApprovalIf :=
      { qualityScoreBelow := 1/2, securityIssuesFound := true,
        iterationsExceeded := true, costExceeded := true,
        tests_failing := true } }

/-- A configuration with auto-merge disabled and the cost human-approval rule
switched off. -/
def cfgNoCostRule : MakerCheckerConfig :=
  { maxIterations := 5, qualityThreshold := 4/5, autoMergeThreshold := 9/10,
    autoMergeEnabled := false, maxCostPerPR := 5, monthlyCostCap := 100,
    requireHumanApprovalIf :=
      { qualityScoreBelow := 1/2, securityIssuesFound := true,
        iterationsExceeded := true, costExceeded := false,
        tests_failing := true } }

/-- A mid-loop state with a high quality score and low cost. -/
def stCx : IterationState :=
  { prNumber := 7, repository := "r", currentIteration := 2, maxIterations := 5,
    history := [], currentPhase := .codex_review, qualityScore := 19/20,
    convergenceStatus := .improving, totalCost := 1 }

/-- A mid-loop state whose cumulative cost already exceeds the cap. -/
def stOverCost : IterationState :=
  { prNumber := 7, repository := "r", currentIteration := 2, maxIterations := 5,
    history := [], currentPhase := .codex_review, qualityScore := 9/10,
    convergenceStatus := .improving, totalCost := 10 }

/-- A non-terminal state already sitting in phase `complete`. -/
def stTerm : IterationState :=
  { prNumber := 7, repository := "r", currentIteration := 1, maxIterations := 5,
    history := [], currentPhase := .complete, qualityScore := 0,
    convergenceStatus := .improving, totalCost := 0 }

/-- A history record with the given reported quality and issue count. -/
def mkRec (q : ℚ) (issues : Nat) : IterationRecord :=
  { iteration := 0
    codexReview := some
      { status := .success, issuesFound := [], overallQuality := q,
        securityIssues := [], performanceIssues := [], cost := 0 }
    claudeResponse := none
    issuesFound := issues
    issuesFixed := 0
    qualityDelta := 0
    cost := 0
    timestamp := 0
    durationSeconds := 0 }

/-- A state whose quality-score history is strictly increasing (by `0.01`
per step) while the issue count stays constant. -/
def stSlowRise : IterationState :=
  { prNumber := 1, repository := "r", currentIteration := 2, maxIterations := 5,
    history := [mkRec (1/2) 5, mkRec (51/100) 5],
    currentPhase := .codex_review, qualityScore := 51/100,
    convergenceStatus := .improving, totalCost := 0 }

/-- A state with clearly rising scores (`+0.1` per step) and falling issue
counts. -/
def stFastRise : IterationState :=
  { prNumber := 1, repository := "r", currentIteration := 2, maxIterations := 5,
    history := [mkRec (1/2) 8, mkRec (3/5) 6],
    currentPhase := .codex_review, qualityScore := 3/5,
    convergenceStatus := .improving, totalCost := 0 }

/-- A state whose history has one large positive delta and one small negative
delta (`0.2, 0.5, 0.4`). -/
def stMixed : IterationState :=
  { prNumber := 1, repository := "r", currentIteration := 3, maxIterations := 5,
    history := [mkRec (1/5) 5, mkRec (1/2) 5, mkRec (2/5) 5],
    currentPhase := .codex_review, qualityScore := 1/2,
    convergenceStatus := .improving, totalCost := 0 }

/-- Collaborator responses whose review reports an error status. -/
def inputErr : IterInput :=
  { codexReview := rvErr, ciStatus := .success
    claudeResponse :=
      { status := .success, filesModified := [], issuesAddressed := 0,
        cost := 0 }
    now := 1000 }

/-- A record input with a nonzero reported quality. -/
def recInputGood : RecordInput :=
  { iteration := 1, codexReview := some rvClean, claudeResponse := none,
    issuesFound := 0, issuesFixed := 0, qualityDelta := 0, cost := 3/2 }

/-- A record input carrying a review whose reported quality is `0`. -/
def recInputZero : RecordInput :=
  { iteration := 1, codexReview := some rvErr, claudeResponse := none,
    issuesFound := 0, issuesFixed := 0, qualityDelta := 0, cost := 1/10 }

/-! ## Helper lemmas -/

lemma sum_map_issuePenalty (l : List Issue) :
    (l.map issuePenalty).sum
      = (1/10) * (l.countP (fun i => decide (i.severity = .error)) : ℚ)
        + (1/20) * (l.countP (fun i => decide (i.severity = .warning)) : ℚ)
        + (1/50) * (l.countP (fun i => decide (i.severity = .info)) : ℚ) := by
  induction l with
  | nil => simp
  | cons a t ih =>
    rw [List.map_cons, List.sum_cons, ih, List.countP_cons, List.countP_cons,
      List.countP_cons]
    cases h : a.severity <;> simp [issuePenalty, h] <;> ring

lemma sum_map_securityPenalty (l : List SecurityIssue) :
    (l.map securityPenalty).sum
      = (1/5) * (l.countP (fun i => decide (i.severity = .critical)) : ℚ)
        + (3/20) * (l.countP (fun i => decide (i.severity = .high)) : ℚ) := by
  induction l with
  | nil => simp
  | cons a t ih =>
    rw [List.map_cons, List.sum_cons, ih, List.countP_cons, List.countP_cons]
    cases h : a.severity <;> simp [securityPenalty, h] <;> ring

lemma sum_map_performancePenalty (l : List PerformanceIssue) :
    (l.map performancePenalty).sum
      = (1/10) * (l.countP (fun i => decide (i.impact = .high)) : ℚ) := by
  induction l with
  | nil => simp
  | cons a t ih =>
    rw [List.map_cons, List.sum_cons, ih, List.countP_cons]
    cases h : a.impact <;> simp [performancePenalty, h] <;> ring

lemma sum_map_categoryPenalty (l : List Issue) :
    (l.map categoryPenalty).sum
      = (3/20) * (l.countP (fun i => decide (i.severity = .error)) : ℚ)
        + (2/25) * (l.countP (fun i => decide (i.severity = .warning)) : ℚ)
        + (3/100) * (l.countP (fun i => decide (i.severity = .info)) : ℚ) := by
  induction l with
  | nil => simp
  | cons a t ih =>
    rw [List.map_cons, List.sum_cons, ih, List.countP_cons, List.countP_cons,
      List.countP_cons]
    cases h : a.severity <;> simp [categoryPenalty, h] <;> ring

lemma calculateCategoryScore_eq (issues : List Issue) :
    calculateCategoryScore issues
      = max 0 (1 - ((3/20) * (issues.countP
            (fun i => decide (i.severity = .error)) : ℚ)
          + (2/25) * (issues.countP
            (fun i => decide (i.severity = .warning)) : ℚ)
          + (3/100) * (issues.countP
            (fun i => decide (i.severity = .info)) : ℚ))) := by
  rw [calculateCategoryScore]
  split
  · rename_i h
    simp [h]
  · rw [sum_map_categoryPenalty]

lemma maxIterationsReason_ne_terminalStateReason (n : Nat) (p : Phase) :
    maxIterationsReason n ≠ terminalStateReason p := by
  intro h
  have h2 := congrArg (fun s => s.data.head?) h
  simp [maxIterationsReason, terminalStateReason, String.data_append] at h2

lemma maxIterationsReason_ne_costLimitReason (n : Nat) (fmt : ℚ → String)
    (t c : ℚ) : maxIterationsReason n ≠ costLimitReason fmt t c := by
  intro h
  have h2 := congrArg (fun s => s.data.head?) h
  simp [maxIterationsReason, costLimitReason, String.data_append] at h2

lemma terminalStateReason_ne_costLimitReason (p : Phase) (fmt : ℚ → String)
    (t c : ℚ) : terminalStateReason p ≠ costLimitReason fmt t c := by
  intro h
  have h2 := congrArg (fun s => s.data.head?) h
  simp [terminalStateReason, costLimitReason, String.data_append] at h2

/-! ## Claims -/

/-- C1 (amended): `MergeDecider.shouldMerge` never returns
`shouldMerge = true` while the review's `issuesFound` list contains a
security-type issue of severity `error`; when such an issue is present the
decision has `shouldMerge = false` and its `blockingIssues` list contains
that issue. -/
theorem shouldMerge_security_error_blocks (fmt : ℚ → String)
    (config : MakerCheckerConfig) (state : IterationState)
    (review : CodexReviewResult) (ciStatus : CIStatus) (issue : Issue)
    (hmem : issue ∈ review.issuesFound) (htype : issue.type = .security)
    (hsev : issue.severity = .error) :
    (shouldMergeDecision fmt config state review ciStatus).shouldMerge = false
      ∧ issue ∈
        (shouldMergeDecision fmt config state review ciStatus).blockingIssues := by
  have hmemf : issue ∈ review.issuesFound.filter
      (fun i => decide (i.type = .security) && decide (i.severity = .error)) :=
    List.mem_filter.mpr ⟨hmem, by simp [htype, hsev]⟩
  have hlen : (review.issuesFound.filter
      (fun i => decide (i.type = .security)
        && decide (i.severity = .error))).length ≠ 0 := by
    intro h0
    rw [List.length_eq_zero] at h0
    rw [h0] at hmemf
    simp at hmemf
  constructor
  · simp [shouldMergeDecision, hlen, Nat.pos_of_ne_zero hlen]
  · simp [shouldMergeDecision, Nat.pos_of_ne_zero hlen]
    exact ⟨hmem, htype, hsev⟩

/-- Witness for C1's amended theorem at a concrete review holding one
security-type `error` issue. -/
theorem shouldMerge_security_error_blocks_witness :
    (shouldMergeDecision fmtEmpty cfgCx stCx rvSec .success).shouldMerge = false
      ∧ issueSec ∈
        (shouldMergeDecision fmtEmpty cfgCx stCx rvSec .success).blockingIssues :=
  shouldMerge_security_error_blocks fmtEmpty cfgCx stCx rvSec .success issueSec
    (by simp [rvSec]) rfl rfl

/-- Counterexample to C1 as stated: with auto-merge enabled, a review holding
a non-security `error`-severity issue and a `critical` security issue still
yields `shouldMerge = true`, and the critical issue is absent from
`blockingIssues` (which is empty). -/
theorem shouldMerge_unsafe_counterexample :
    (shouldMergeDecision fmtEmpty cfgCx stCx rvCx .success).shouldMerge = true
      ∧ (shouldMergeDecision fmtEmpty cfgCx stCx rvCx .success).blockingIssues
          = []
      ∧ issueCx ∈ rvCx.issuesFound ∧ issueCx.severity = .error
      ∧ secCx ∈ rvCx.securityIssues ∧ secCx.severity = .critical := by
  norm_num [shouldMergeDecision, requiresHumanApprovalCheck, cfgCx, stCx,
    rvCx, issueCx, secCx, List.filter]
  decide

/-- C2 (amended): when the `requireHumanApprovalIf.costExceeded` rule is
enabled, `MergeDecider.shouldMerge` returns `shouldMerge = true` only if the
state's cumulative cost is strictly below the per-change cost cap. -/
theorem shouldMerge_cost_gate_when_rule_enabled (fmt : ℚ → String)
    (config : MakerCheckerConfig) (state : IterationState)
    (review : CodexReviewResult) (ciStatus : CIStatus)
    (hrule : config.requireHumanApprovalIf.costExceeded = true)
    (h : (shouldMergeDecision fmt config state review ciStatus).shouldMerge
      = true) :
    state.totalCost < config.maxCostPerPR := by
  by_contra hlt
  push_neg at hlt
  have hfalse :
      (shouldMergeDecision fmt config state review ciStatus).shouldMerge
        = false := by
    simp [shouldMergeDecision, requiresHumanApprovalCheck, hrule, ge_iff_le,
      hlt]
  rw [h] at hfalse
  simp at hfalse

/-- Witness for C2's amended theorem at a concrete merge-approving decision
under a configuration with the cost rule enabled. -/
theorem shouldMerge_cost_gate_witness : stCx.totalCost < cfgCx.maxCostPerPR :=
  shouldMerge_cost_gate_when_rule_enabled fmtEmpty cfgCx stCx rvCx .success rfl
    (by
      norm_num [shouldMergeDecision, requiresHumanApprovalCheck, cfgCx, stCx,
        rvCx, issueCx, secCx, List.filter]
      decide)

/-- Counterexample to C2 as stated: with the `costExceeded` human-approval
rule disabled, `shouldMerge` returns `true` although the cumulative cost
(`10`) is not below the cap (`5`). -/
theorem shouldMerge_cost_counterexample :
    (shouldMergeDecision fmtEmpty cfgNoCostRule stOverCost rvClean
        .success).shouldMerge = true
      ∧ stOverCost.totalCost ≥ cfgNoCostRule.maxCostPerPR := by
  norm_num [shouldMergeDecision, requiresHumanApprovalCheck, cfgNoCostRule,
    stOverCost, rvClean, List.filter]

/-- C3: `IterationLimiter.canStartIteration` denies a new iteration exactly
when the iteration cap is reached, the phase is terminal
(`complete`/`failed`), or the cumulative cost reaches the per-change cap;
each of the three cases produces its own reason string and the three reason
strings are pairwise distinct. -/
theorem canStartIteration_spec (fmt : ℚ → String)
    (config : MakerCheckerConfig) (state : IterationState) :
    ((canStartIteration fmt config state).allowed = false ↔
      (state.currentIteration ≥ state.maxIterations ∨
        (state.currentPhase = .complete ∨ state.currentPhase = .failed) ∨
        state.totalCost ≥ config.maxCostPerPR)) ∧
    (state.currentIteration ≥ state.maxIterations →
      (canStartIteration fmt config state).reason
        = some (maxIterationsReason state.maxIterations)) ∧
    (state.currentIteration < state.maxIterations →
      (state.currentPhase = .complete ∨ state.currentPhase = .failed) →
      (canStartIteration fmt config state).reason
        = some (terminalStateReason state.currentPhase)) ∧
    (state.currentIteration < state.maxIterations →
      ¬(state.currentPhase = .complete ∨ state.currentPhase = .failed) →
      state.totalCost ≥ config.maxCostPerPR →
      (canStartIteration fmt config state).reason
        = some (costLimitReason fmt state.totalCost config.maxCostPerPR)) ∧
    (∀ (n : Nat) (p : Phase) (t c : ℚ),
      maxIterationsReason n ≠ terminalStateReason p ∧
      maxIterationsReason n ≠ costLimitReason fmt t c ∧
      terminalStateReason p ≠ costLimitReason fmt t c) := by
  refine ⟨?_, ?_, ?_, ?_, fun n p t c =>
    ⟨maxIterationsReason_ne_terminalStateReason n p,
     maxIterationsReason_ne_costLimitReason n fmt t c,
     terminalStateReason_ne_costLimitReason p fmt t c⟩⟩
  · unfold canStartIteration
    split_ifs with h1 h2 h3 <;> simp_all <;> omega
  · intro h
    simp [canStartIteration, h]
  · intro h1 h2
    rw [canStartIteration, if_neg (by omega), if_pos h2]
  · intro h1 h2 h3
    rw [canStartIteration, if_neg (by omega), if_neg h2, if_pos h3]

/-- Witness for C3 at a concrete state that is blocked by the terminal-phase
gate. -/
theorem canStartIteration_spec_witness :
    (canStartIteration fmtEmpty cfgCx stTerm).allowed = false
      ∧ (canStartIteration fmtEmpty cfgCx stTerm).reason
          = some (terminalStateReason .complete) := by
  have h := canStartIteration_spec fmtEmpty cfgCx stTerm
  refine ⟨h.1.mpr (Or.inr (Or.inl (Or.inl rfl))), ?_⟩
  exact h.2.2.1 (by norm_num [stTerm]) (Or.inl rfl)

/-- C4: `QualityAnalyzer.calculateQualityScore` returns `0` for an
error-status review; otherwise it returns the Checker-reported overall score
minus `0.10`/`0.05`/`0.02` per error/warning/info issue, `0.20`/`0.15` per
critical/high security issue and `0.10` per high-impact performance issue,
clamped to `[0, 1]`; the result always lies in `[0, 1]`. -/
theorem calculateQualityScore_spec (review : CodexReviewResult) :
    (review.status = .error → calculateQualityScore review = 0) ∧
    (review.status = .success →
      calculateQualityScore review
        = min 1 (max 0 (review.overallQuality
            - ((1/10) * (review.issuesFound.countP
                  (fun i => decide (i.severity = .error)) : ℚ)
              + (1/20) * (review.issuesFound.countP
                  (fun i => decide (i.severity = .warning)) : ℚ)
              + (1/50) * (review.issuesFound.countP
                  (fun i => decide (i.severity = .info)) : ℚ)
              + (1/5) * (review.securityIssues.countP
                  (fun i => decide (i.severity = .critical)) : ℚ)
              + (3/20) * (review.securityIssues.countP
                  (fun i => decide (i.severity = .high)) : ℚ)
              + (1/10) * (review.performanceIssues.countP
                  (fun i => decide (i.impact = .high)) : ℚ))))) ∧
    0 ≤ calculateQualityScore review ∧ calculateQualityScore review ≤ 1 := by
  refine ⟨fun h => by simp [calculateQualityScore, h], fun h => ?_, ?_, ?_⟩
  · simp only [calculateQualityScore, h]
    rw [if_neg (by simp)]
    rw [calculatePenalties, sum_map_issuePenalty, sum_map_securityPenalty,
      sum_map_performancePenalty, ← max_assoc, max_self]
    ring_nf
  · by_cases h : review.status = .error
    · simp [calculateQualityScore, h]
    · simp only [calculateQualityScore, if_neg h]
      exact le_min (by norm_num) (le_max_left 0 _)
  · by_cases h : review.status = .error
    · simp [calculateQualityScore, h]
    · simp only [calculateQualityScore, if_neg h]
      exact min_le_left 1 _

/-- Witness for C4 at a concrete error-status review. -/
theorem calculateQualityScore_spec_witness : calculateQualityScore rvErr = 0 :=
  (calculateQualityScore_spec rvErr).1 rfl

/-- C5: `QualityAnalyzer.calculateMetrics` scores each category as `1.0`
minus `0.15`/`0.08`/`0.03` per error/warning/info issue of that category,
floored at `0` (an empty issue list yields `1.0` in every category), and the
overall score is the weighted sum
`0.25·security + 0.20·performance + 0.20·typeSafety + 0.20·codeQuality +
0.15·bestPractices`. -/
theorem calculateMetrics_spec (review : CodexReviewResult) :
    ((calculateMetrics review).security
      = calculateCategoryScore (review.issuesFound.filter (·.type = .security))) ∧
    ((calculateMetrics review).performance
      = calculateCategoryScore
          (review.issuesFound.filter (·.type = .performance))) ∧
    ((calculateMetrics review).typeSafety
      = calculateCategoryScore
          (review.issuesFound.filter (·.type = .type_safety))) ∧
    ((calculateMetrics review).codeQuality
      = calculateCategoryScore
          (review.issuesFound.filter (·.type = .code_quality))) ∧
    ((calculateMetrics review).bestPractices
      = calculateCategoryScore
          (review.issuesFound.filter (·.type = .best_practice))) ∧
    (∀ issues : List Issue,
      calculateCategoryScore issues
        = max 0 (1 - ((3/20) * (issues.countP
              (fun i => decide (i.severity = .error)) : ℚ)
            + (2/25) * (issues.countP
              (fun i => decide (i.severity = .warning)) : ℚ)
            + (3/100) * (issues.countP
              (fun i => decide (i.severity = .info)) : ℚ)))) ∧
    (review.issuesFound = [] →
      (calculateMetrics review).security = 1
        ∧ (calculateMetrics review).performance = 1
        ∧ (calculateMetrics review).typeSafety = 1
        ∧ (calculateMetrics review).codeQuality = 1
        ∧ (calculateMetrics review).bestPractices = 1) ∧
    (calculateMetrics review).overallScore
      = (1/4) * (calculateMetrics review).security
        + (1/5) * (calculateMetrics review).performance
        + (1/5) * (calculateMetrics review).typeSafety
        + (1/5) * (calculateMetrics review).codeQuality
        + (3/20) * (calculateMetrics review).bestPractices := by
  refine ⟨rfl, rfl, rfl, rfl, rfl, fun issues => calculateCategoryScore_eq issues,
    ?_, ?_⟩
  · intro h
    simp [calculateMetrics, h, calculateCategoryScore]
  · simp only [calculateMetrics]
    ring

/-- Witness for C5 at a concrete issue-free review: every category scores
`1`. -/
theorem calculateMetrics_spec_witness :
    (calculateMetrics rvClean).security = 1
      ∧ (calculateMetrics rvClean).performance = 1
      ∧ (calculateMetrics rvClean).typeSafety = 1
      ∧ (calculateMetrics rvClean).codeQuality = 1
      ∧ (calculateMetrics rvClean).bestPractices = 1 :=
  (calculateMetrics_spec rvClean).2.2.2.2.2.2.1 rfl

/-- C8: across the `StateManager` operations, every reachable state's
`totalCost` equals the sum of its history records' costs, and no operation
decreases `totalCost` (recording assumed to carry a non-negative cost;
the other operations leave `totalCost` unchanged). -/
theorem totalCost_invariant :
    (∀ s : IterationState, Reachable s →
      s.totalCost = (s.history.map (·.cost)).sum) ∧
    (∀ (s : IterationState) (r : RecordInput) (now : Nat), 0 ≤ r.cost →
      s.totalCost ≤ (recordIteration s r now).totalCost) ∧
    (∀ s : IterationState, (startIteration s).totalCost = s.totalCost) ∧
    (∀ (s : IterationState) (p : Phase),
      (updatePhase s p).totalCost = s.totalCost) ∧
    (∀ (s : IterationState) (c : ConvStatus),
      (updateConvergence s c).totalCost = s.totalCost) ∧
    (∀ (s : IterationState) (b : Bool),
      (completeState s b).totalCost = s.totalCost) := by
  refine ⟨?_, ?_, fun s => rfl, fun s p => rfl, fun s c => rfl, fun s b => rfl⟩
  · intro s h
    induction h with
    | init p r c => simp [initializeState]
    | start h ih => simpa [startIteration] using ih
    | record r now h ih => simp [recordIteration, List.map_append, ih]
    | phase p h ih => simpa [updatePhase] using ih
    | conv c h ih => simpa [updateConvergence] using ih
    | done b h ih => simpa [completeState] using ih
  · intro s r now hc
    simp only [recordIteration]
    linarith

/-- Witness for C8 at a concrete reachable state (initialize, then record one
iteration). -/
theorem totalCost_invariant_witness :
    (recordIteration (initializeState 7 "r" cfgCx) recInputGood 5).totalCost
      = ((recordIteration (initializeState 7 "r" cfgCx) recInputGood
          5).history.map (·.cost)).sum :=
  totalCost_invariant.1 _
    (Reachable.record recInputGood 5 (Reachable.init 7 "r" cfgCx))

/-- C9: when the Codex (Checker) review of an iteration reports an error
status, the orchestrator loop sets the phase to `failed`, stops immediately
(the remaining inputs are never consumed), and never invokes Claude (the
Maker) in that iteration. -/
theorem checkerError_failsFast (config : MakerCheckerConfig)
    (state : IterationState) (input : IterInput) (rest : List IterInput)
    (hiter : state.currentIteration < state.maxIterations)
    (herr : input.codexReview.status = .error) :
    (runIterations config state (input :: rest)).1.currentPhase = .failed ∧
    (runIterations config state (input :: rest)).2
      = [(state.currentIteration + 1, false)] := by
  simp [runIterations, hiter, runIterationBody, herr, startIteration]

/-- Witness for C9 at a concrete state and an error-status review. -/
theorem checkerError_failsFast_witness :
    (runIterations cfgCx stCx [inputErr]).1.currentPhase = .failed ∧
    (runIterations cfgCx stCx [inputErr]).2 = [(3, false)] :=
  checkerError_failsFast cfgCx stCx inputErr [] (by norm_num [stCx]) rfl

/-- C10: `StateManager.recordIteration` overwrites the persisted
`qualityScore` with the record's Checker-reported `overallQuality` only when
a review is present and its value is nonzero; with no review, or a reported
`0`, the previous `qualityScore` is kept unchanged. -/
theorem recordIteration_qualityScore (state : IterationState)
    (record : RecordInput) (now : Nat) :
    (∀ c : CodexReviewResult, record.codexReview = some c →
      c.overallQuality ≠ 0 →
      (recordIteration state record now).qualityScore = c.overallQuality) ∧
    (record.codexReview = none →
      (recordIteration state record now).qualityScore = state.qualityScore) ∧
    (∀ c : CodexReviewResult, record.codexReview = some c →
      c.overallQuality = 0 →
      (recordIteration state record now).qualityScore = state.qualityScore) := by
  refine ⟨?_, ?_, ?_⟩
  · intro c hc hq
    simp [recordIteration, hc, hq]
  · intro hc
    simp [recordIteration, hc]
  · intro c hc hq
    simp [recordIteration, hc, hq]

/-- Witness for C10 at a concrete record whose review reports quality `0`:
the previous score is kept. -/
theorem recordIteration_qualityScore_witness :
    (recordIteration stCx recInputZero 5).qualityScore = stCx.qualityScore :=
  (recordIteration_qualityScore stCx recInputZero 5).2.2 rvErr rfl rfl

/-! ## List lemmas for the convergence analysis -/

lemma adjacentDeltas_length (l : List ℚ) :
    (adjacentDeltas l).length = l.length - 1 := by
  induction l with
  | nil => rfl
  | cons a t ih =>
    cases t with
    | nil => rfl
    | cons b r =>
      simp only [adjacentDeltas, List.length_cons] at ih ⊢
      omega

lemma adjacentPairs_length {α : Type} (l : List α) :
    (adjacentPairs l).length = l.length - 1 := by
  induction l with
  | nil => rfl
  | cons a t ih =>
    cases t with
    | nil => rfl
    | cons b r =>
      simp only [adjacentPairs, List.length_cons] at ih ⊢
      omega

lemma adjacentDeltas_tail_subset (a : ℚ) (t : List ℚ) :
    ∀ d ∈ adjacentDeltas t, d ∈ adjacentDeltas (a :: t) := by
  cases t with
  | nil => simp [adjacentDeltas]
  | cons b r =>
    intro d hd
    simp only [adjacentDeltas, List.mem_cons]
    exact Or.inr hd

lemma adjacentDeltas_drop_subset (k : Nat) (l : List ℚ) :
    ∀ d ∈ adjacentDeltas (l.drop k), d ∈ adjacentDeltas l := by
  induction k generalizing l with
  | zero => simp
  | succ k ih =>
    cases l with
    | nil => simp
    | cons a t =>
      intro d hd
      rw [List.drop_succ_cons] at hd
      exact adjacentDeltas_tail_subset a t d (ih t d hd)

lemma adjacentPairs_tail_subset {α : Type} (a : α) (t : List α) :
    ∀ p ∈ adjacentPairs t, p ∈ adjacentPairs (a :: t) := by
  cases t with
  | nil => simp [adjacentPairs]
  | cons b r =>
    intro p hp
    simp only [adjacentPairs, List.mem_cons]
    exact Or.inr hp

lemma adjacentPairs_drop_subset {α : Type} (k : Nat) (l : List α) :
    ∀ p ∈ adjacentPairs (l.drop k), p ∈ adjacentPairs l := by
  induction k generalizing l with
  | zero => simp
  | succ k ih =>
    cases l with
    | nil => simp
    | cons a t =>
      intro p hp
      rw [List.drop_succ_cons] at hp
      exact adjacentPairs_tail_subset a t p (ih t p hp)

lemma analyzeQualityTrend_of_up (h : List IterationRecord)
    (hlen : 2 ≤ h.length)
    (hup : ∀ d ∈ adjacentDeltas (h.map recordQuality), 1/50 < d) :
    analyzeQualityTrend h = ⟨true, false, false⟩ := by
  have hlds : (adjacentDeltas (h.map recordQuality)).length = h.length - 1 := by
    rw [adjacentDeltas_length, List.length_map]
  have h1 : (adjacentDeltas (h.map recordQuality)).countP
      (fun d => decide (d > 1/50)) = h.length - 1 := by
    rw [← hlds]
    exact List.countP_eq_length.mpr (fun d hd => by simpa using hup d hd)
  have h2 : (adjacentDeltas (h.map recordQuality)).countP
      (fun d => decide (d < -(1/50))) = 0 :=
    List.countP_eq_zero.mpr (fun d hd => by
      have := hup d hd
      simp
      linarith)
  have h3 : (adjacentDeltas (h.map recordQuality)).countP
      (fun d => decide (¬d > 1/50 ∧ ¬d < -(1/50))) = 0 :=
    List.countP_eq_zero.mpr (fun d hd => by
      have := hup d hd
      simp
      intro hnot
      linarith)
  simp only [analyzeQualityTrend, h1, h2, h3, List.length_map,
    QualityTrend.mk.injEq]
  refine ⟨?_, ?_, ?_⟩ <;> simp <;> omega

lemma analyzeQualityTrend_of_flat (h : List IterationRecord)
    (hlen : 2 ≤ h.length)
    (hflat : ∀ d ∈ adjacentDeltas (h.map recordQuality),
      -(1/50) ≤ d ∧ d ≤ 1/50) :
    analyzeQualityTrend h = ⟨false, true, false⟩ := by
  have hlds : (adjacentDeltas (h.map recordQuality)).length = h.length - 1 := by
    rw [adjacentDeltas_length, List.length_map]
  have h1 : (adjacentDeltas (h.map recordQuality)).countP
      (fun d => decide (d > 1/50)) = 0 :=
    List.countP_eq_zero.mpr (fun d hd => by
      have := (hflat d hd).2
      simp
      linarith)
  have h2 : (adjacentDeltas (h.map recordQuality)).countP
      (fun d => decide (d < -(1/50))) = 0 :=
    List.countP_eq_zero.mpr (fun d hd => by
      have := (hflat d hd).1
      simp
      linarith)
  have h3 : (adjacentDeltas (h.map recordQuality)).countP
      (fun d => decide (¬d > 1/50 ∧ ¬d < -(1/50))) = h.length - 1 := by
    rw [← hlds]
    exact List.countP_eq_length.mpr (fun d hd => by
      have h4 := (hflat d hd).1
      have h5 := (hflat d hd).2
      simp
      constructor <;> linarith)
  simp only [analyzeQualityTrend, h1, h2, h3, List.length_map,
    QualityTrend.mk.injEq]
  simp

lemma analyzeQualityTrend_of_down (h : List IterationRecord)
    (hlen : 2 ≤ h.length)
    (hdown : ∀ d ∈ adjacentDeltas (h.map recordQuality), d < -(1/50)) :
    analyzeQualityTrend h = ⟨false, false, true⟩ := by
  have hlds : (adjacentDeltas (h.map recordQuality)).length = h.length - 1 := by
    rw [adjacentDeltas_length, List.length_map]
  have h1 : (adjacentDeltas (h.map recordQuality)).countP
      (fun d => decide (d > 1/50)) = 0 :=
    List.countP_eq_zero.mpr (fun d hd => by
      have := hdown d hd
      simp
      linarith)
  have h2 : (adjacentDeltas (h.map recordQuality)).countP
      (fun d => decide (d < -(1/50))) = h.length - 1 := by
    rw [← hlds]
    exact List.countP_eq_length.mpr (fun d hd => by simpa using hdown d hd)
  have h3 : (adjacentDeltas (h.map recordQuality)).countP
      (fun d => decide (¬d > 1/50 ∧ ¬d < -(1/50))) = 0 :=
    List.countP_eq_zero.mpr (fun d hd => by
      have := hdown d hd
      simp
      intro hnot
      linarith)
  simp only [analyzeQualityTrend, h1, h2, h3, List.length_map,
    QualityTrend.mk.injEq]
  refine ⟨?_, ?_, ?_⟩ <;> simp <;> omega

lemma analyzeIssueTrend_of_down (h : List IterationRecord)
    (hlen : 2 ≤ h.length)
    (hdown : ∀ p ∈ adjacentPairs (h.map (·.issuesFound)), p.2 < p.1) :
    analyzeIssueTrend h = ⟨true, false, false⟩ := by
  have hlds : (adjacentPairs (h.map (·.issuesFound))).length
      = h.length - 1 := by
    rw [adjacentPairs_length, List.length_map]
  have h1 : (adjacentPairs (h.map (·.issuesFound))).countP
      (fun p => decide (p.2 < p.1)) = h.length - 1 := by
    rw [← hlds]
    exact List.countP_eq_length.mpr (fun p hp => by simpa using hdown p hp)
  have h2 : (adjacentPairs (h.map (·.issuesFound))).countP
      (fun p => decide (p.2 > p.1)) = 0 :=
    List.countP_eq_zero.mpr (fun p hp => by
      have := hdown p hp
      simp
      omega)
  have h3 : (adjacentPairs (h.map (·.issuesFound))).countP
      (fun p => decide (¬p.2 < p.1 ∧ ¬p.2 > p.1)) = 0 :=
    List.countP_eq_zero.mpr (fun p hp => by
      have := hdown p hp
      simp
      omega)
  simp only [analyzeIssueTrend, h1, h2, h3, List.length_map,
    IssueTrend.mk.injEq]
  refine ⟨?_, ?_, ?_⟩ <;> simp <;> omega

lemma analyzeIssueTrend_of_same (h : List IterationRecord)
    (hlen : 2 ≤ h.length)
    (hsame : ∀ p ∈ adjacentPairs (h.map (·.issuesFound)), p.1 = p.2) :
    analyzeIssueTrend h = ⟨false, true, false⟩ := by
  have hlds : (adjacentPairs (h.map (·.issuesFound))).length
      = h.length - 1 := by
    rw [adjacentPairs_length, List.length_map]
  have h1 : (adjacentPairs (h.map (·.issuesFound))).countP
      (fun p => decide (p.2 < p.1)) = 0 :=
    List.countP_eq_zero.mpr (fun p hp => by
      have := hsame p hp
      simp
      omega)
  have h2 : (adjacentPairs (h.map (·.issuesFound))).countP
      (fun p => decide (p.2 > p.1)) = 0 :=
    List.countP_eq_zero.mpr (fun p hp => by
      have := hsame p hp
      simp
      omega)
  have h3 : (adjacentPairs (h.map (·.issuesFound))).countP
      (fun p => decide (¬p.2 < p.1 ∧ ¬p.2 > p.1)) = h.length - 1 := by
    rw [← hlds]
    exact List.countP_eq_length.mpr (fun p hp => by
      have := hsame p hp
      simp
      omega)
  simp only [analyzeIssueTrend, h1, h2, h3, List.length_map,
    IssueTrend.mk.injEq]
  simp

/-- C6 (amended): with at least two history records,
`ConvergenceDetector.detectConvergence` classifies a quality sequence whose
adjacent deltas each exceed `+0.02` with strictly decreasing issue counts as
`improving`; a sequence whose deltas all lie within `±0.02` with constant
issue counts as `stagnant`; and a sequence whose deltas are each below
`−0.02` as `regressing`. -/
theorem detectConvergence_trend_spec (state : IterationState)
    (hlen : 2 ≤ state.history.length) :
    ((∀ d ∈ adjacentDeltas (state.history.map recordQuality), 1/50 < d) →
     (∀ p ∈ adjacentPairs (state.history.map (·.issuesFound)), p.2 < p.1) →
      (detectConvergence 3 state).status = .improving) ∧
    ((∀ d ∈ adjacentDeltas (state.history.map recordQuality),
        -(1/50) ≤ d ∧ d ≤ 1/50) →
     (∀ p ∈ adjacentPairs (state.history.map (·.issuesFound)), p.1 = p.2) →
      (detectConvergence 3 state).status = .stagnant) ∧
    ((∀ d ∈ adjacentDeltas (state.history.map recordQuality), d < -(1/50)) →
      (detectConvergence 3 state).status = .regressing) := by
  have h3 : sliceLast 3 state.history
      = state.history.drop (state.history.length - 3) := by
    simp [sliceLast]
  have hwlen : 2 ≤ (sliceLast 3 state.history).length := by
    rw [h3, List.length_drop]
    omega
  have htrq : ∀ d ∈ adjacentDeltas ((sliceLast 3 state.history).map
      recordQuality), d ∈ adjacentDeltas (state.history.map recordQuality) := by
    intro d hd
    rw [h3, List.map_drop] at hd
    exact adjacentDeltas_drop_subset _ _ d hd
  have htri : ∀ p ∈ adjacentPairs ((sliceLast 3 state.history).map
      (·.issuesFound)), p ∈ adjacentPairs (state.history.map (·.issuesFound)) := by
    intro p hp
    rw [h3, List.map_drop] at hp
    exact adjacentPairs_drop_subset _ _ p hp
  refine ⟨fun hup hdownI => ?_, fun hflat hsame => ?_, fun hdown => ?_⟩
  · have hq := analyzeQualityTrend_of_up (sliceLast 3 state.history) hwlen
      (fun d hd => hup d (htrq d hd))
    have hi := analyzeIssueTrend_of_down (sliceLast 3 state.history) hwlen
      (fun p hp => hdownI p (htri p hp))
    simp only [detectConvergence]
    rw [if_neg (by omega)]
    simp [hq, hi]
  · have hq := analyzeQualityTrend_of_flat (sliceLast 3 state.history) hwlen
      (fun d hd => hflat d (htrq d hd))
    have hi := analyzeIssueTrend_of_same (sliceLast 3 state.history) hwlen
      (fun p hp => hsame p (htri p hp))
    simp only [detectConvergence]
    rw [if_neg (by omega)]
    simp [hq, hi]
  · have hq := analyzeQualityTrend_of_down (sliceLast 3 state.history) hwlen
      (fun d hd => hdown d (htrq d hd))
    simp only [detectConvergence]
    rw [if_neg (by omega)]
    simp [hq]

/-- Witness for C6's amended theorem at a concrete clearly-rising history. -/
theorem detectConvergence_trend_witness :
    (detectConvergence 3 stFastRise).status = .improving := by
  have h := detectConvergence_trend_spec stFastRise (by simp [stFastRise])
  refine h.1 ?_ ?_
  · intro d hd
    simp [stFastRise, mkRec, recordQuality, adjacentDeltas] at hd
    norm_num [hd]
  · intro p hp
    simp [stFastRise, mkRec, adjacentPairs] at hp
    simp [hp]

/-- Counterexample to C6 as stated: the strictly increasing score sequence
`0.50, 0.51` (constant issue counts) is classified `stagnant`, not
`improving`, because its delta does not exceed the `0.02` band. -/
theorem detectConvergence_counterexample :
    (detectConvergence 3 stSlowRise).status = .stagnant ∧
    stSlowRise.history.map recordQuality = [1/2, 51/100] ∧
    ((1:ℚ)/2 < 51/100) := by
  norm_num [detectConvergence, stSlowRise, sliceLast, analyzeQualityTrend,
    analyzeIssueTrend, adjacentDeltas, adjacentPairs, recordQuality, mkRec,
    List.countP, List.countP.go]

/-- C7 (amended): for a state below target with at least two history
records, `ConvergenceDetector.predictConvergence` uses the mean of ALL
adjacent quality deltas (not only the positive ones): if that mean is `≤ 0`
it reports not reaching the target (`willReach = false`, estimate `-1`,
confidence `0.9`); otherwise the estimate is
`ceil((target − current) / meanDelta)`, `willReach` holds exactly when the
estimate is at most the remaining iteration budget, and the confidence is
`max 0.4 (1 − variance of the deltas)`. -/
theorem predictConvergence_spec (state : IterationState) (targetQuality : ℚ)
    (hbelow : state.qualityScore < targetQuality)
    (hlen : 2 ≤ state.history.length) :
    (listMean (adjacentDeltas (state.history.map recordQuality)) ≤ 0 →
      predictConvergence state targetQuality = ⟨false, -1, 9/10⟩) ∧
    (0 < listMean (adjacentDeltas (state.history.map recordQuality)) →
      predictConvergence state targetQuality
        = ⟨decide (⌈(targetQuality - state.qualityScore)
              / listMean (adjacentDeltas (state.history.map recordQuality))⌉
            ≤ (state.maxIterations : ℤ) - state.currentIteration),
           ⌈(targetQuality - state.qualityScore)
              / listMean (adjacentDeltas (state.history.map recordQuality))⌉,
           max (2/5) (1 - calculateVariance
              (adjacentDeltas (state.history.map recordQuality)))⟩) := by
  have h1 : ¬(state.qualityScore ≥ targetQuality) := not_le.mpr hbelow
  have h2 : ¬(state.history.length < 2) := by omega
  constructor
  · intro havg
    simp only [predictConvergence]
    rw [if_neg h1, if_neg h2, if_pos havg]
  · intro havg
    simp only [predictConvergence]
    rw [if_neg h1, if_neg h2, if_neg (not_le.mpr havg)]

/-- Witness for C7's amended theorem at a concrete mixed-delta history. -/
theorem predictConvergence_spec_witness :
    predictConvergence stMixed (9/10)
      = ⟨decide (⌈((9:ℚ)/10 - stMixed.qualityScore)
            / listMean (adjacentDeltas (stMixed.history.map recordQuality))⌉
          ≤ (stMixed.maxIterations : ℤ) - stMixed.currentIteration),
         ⌈((9:ℚ)/10 - stMixed.qualityScore)
            / listMean (adjacentDeltas (stMixed.history.map recordQuality))⌉,
         max (2/5) (1 - calculateVariance
            (adjacentDeltas (stMixed.history.map recordQuality)))⟩ :=
  (predictConvergence_spec stMixed (9/10) (by norm_num [stMixed])
    (by simp [stMixed])).2
    (by norm_num [stMixed, mkRec, recordQuality, adjacentDeltas, listMean])

/-- Counterexample to C7 as stated: on the history `0.2, 0.5, 0.4` (deltas
`+0.3, −0.1`) the code estimates `ceil(0.4 / mean all deltas) = 4` and
reports `willReach = false`, whereas the claim's positive-delta mean `0.3`
would estimate `2`, within the remaining budget of `2`. -/
theorem predictConvergence_counterexample :
    (predictConvergence stMixed (9/10)).estimatedIterations = 4 ∧
    (predictConvergence stMixed (9/10)).willReach = false ∧
    (adjacentDeltas (stMixed.history.map recordQuality)).filter
        (fun d => decide (0 < d)) = [3/10] ∧
    ⌈((9:ℚ)/10 - stMixed.qualityScore) / (3/10)⌉ = 2 ∧
    ((2:ℤ) ≤ (stMixed.maxIterations : ℤ) - stMixed.currentIteration) := by
  norm_num [predictConvergence, stMixed, mkRec, recordQuality, adjacentDeltas,
    listMean, calculateVariance, List.filter]
  rw [Int.ceil_eq_iff]
  norm_num

end LLM2
